import Mathlib

/-!
Verification development for `src/Data/rre_accuracy_audit.py` (RRE blind-test
accuracy audit).  The Python program is shallowly embedded: Python strings are
Lean `String`s, Python lists are Lean `List`s, Python dicts are association
lists in insertion order, Python floats are modelled as rationals (`ℚ`), and
Python's `sorted` is modelled by the (stable) `List.insertionSort`.  Each
definition mirrors one function or code block of the source file; the theorems
at the end settle the specification claims against these definitions.
-/

namespace RRE

/-! ### Python string primitives

The source relies on `str.strip`, `str.lower`, `str.split(',')`, string
`sorted` order and `', '.join`.  They are modelled on the character list of a
`String` so that every operation is structurally recursive and computable.
-/

/-- Removes the elements satisfying `p` from the end of a list. -/
def dropEndWhile (p : Char → Bool) (l : List Char) : List Char :=
  (l.reverse.dropWhile p).reverse

/-- Python `str.strip(chars)` restricted to a character class `p`: removes the
characters satisfying `p` from both ends of the string. -/
def pyStripWith (p : Char → Bool) (s : String) : String :=
  String.mk (dropEndWhile p (s.data.dropWhile p))

/-- Python `str.strip()`: removes leading and trailing whitespace. -/
def pyStrip (s : String) : String :=
  pyStripWith Char.isWhitespace s

/-- Python `str.strip('"')` as used on Gemini lines: removes every leading and
trailing double-quote character. -/
def pyStripQuotes (s : String) : String :=
  pyStripWith (fun c => c == '"') s

/-- Python `str.lower()` (the source data is ASCII). -/
def pyLower (s : String) : String :=
  String.mk (s.data.map Char.toLower)

/-- Splits a character list at every comma; mirrors Python `str.split(',')`,
including `"".split(',') == ['']`. -/
def splitCommaList : List Char → List (List Char)
  | [] => [[]]
  | c :: cs =>
    if c = ',' then [] :: splitCommaList cs
    else
      match splitCommaList cs with
      | [] => [[c]]
      | h :: t => (c :: h) :: t

/-- Python `str.split(',')`. -/
def splitComma (s : String) : List String :=
  (splitCommaList s.data).map String.mk

/-- Python `sep.join(parts)`. -/
def joinSep (sep : String) : List String → String
  | [] => ""
  | [x] => x
  | x :: y :: t => x ++ sep ++ joinSep sep (y :: t)

/-- Lexicographic comparison of character lists by code point, the order
Python uses to compare strings. -/
def lexLe : List Char → List Char → Bool
  | [], _ => true
  | _ :: _, [] => false
  | x :: xs, y :: ys => decide (x < y) || (decide (x = y) && lexLe xs ys)

/-- Python string order `a <= b` as a proposition, used to model `sorted`. -/
def strLeR (a b : String) : Prop :=
  lexLe a.data b.data = true

instance : DecidableRel strLeR := fun a b =>
  inferInstanceAs (Decidable (lexLe a.data b.data = true))

/-! ### Aspect Normalizer (`normalize_aspect_name`, source lines 14-38) -/

/-- Synonym table of `normalize_aspect_name`: keys are lower-cased variants,
values the canonical aspect labels. -/
def aspectMapping : List (String × String) :=
  [("material/ quality", "Material/Quality"),
   ("material/quality", "Material/Quality"),
   ("sizing/fit", "Sizing/Fit"),
   ("fit/sizing", "Sizing/Fit"),
   ("comfort", "Comfort"),
   ("style", "Color/Aesthetics"),
   ("color/aesthetics", "Color/Aesthetics"),
   ("durability", "Durability"),
   ("shipping/packaging", "Shipping/Packaging"),
   ("instruction/ ux", "Instructions/UX"),
   ("instructions/ux", "Instructions/UX"),
   ("value/price", "Value/Price")]

/-- The canonical labels, i.e. the range of the synonym table. -/
def canonicalAspects : List String :=
  aspectMapping.map Prod.snd

/-- Embeds `normalize_aspect_name`: strip the input, look the lower-cased
form up in the synonym table, and fall back to the stripped input. -/
def normalize_aspect_name (aspect : String) : String :=
  let a := pyStrip aspect
  match aspectMapping.lookup (pyLower a) with
  | some v => v
  | none => a

/-! ### Python dict model

The loaders build `collections.defaultdict(list)` dictionaries keyed by
review id.  A dict is modelled as an association list in insertion order;
`dictSet` models `d[k] = v` and `dictAppend` models `d[k].append(a)` on a
`defaultdict(list)`.
-/

/-- Python `d[k] = v`: replaces the value of an existing key in place,
otherwise appends the new binding at the end. -/
def dictSet (m : List (String × α)) (k : String) (v : α) : List (String × α) :=
  if m.any (fun p => p.1 == k) then
    m.map (fun p => if p.1 = k then (k, v) else p)
  else m ++ [(k, v)]

/-- Python `d[k].append(a)` on a `defaultdict(list)`: appends to the list of
an existing key, otherwise creates the key with the one-element list. -/
def dictAppend (m : List (String × List String)) (k : String) (a : String) :
    List (String × List String) :=
  if m.any (fun p => p.1 == k) then
    m.map (fun p => if p.1 = k then (p.1, p.2 ++ [a]) else p)
  else m ++ [(k, [a])]

/-! ### Source loaders (`load_rita_aspects` lines 40-61,
`load_gemini_aspects` lines 63-96) -/

/-- One row of Rita's CSV as produced by `csv.DictReader`: the two columns
the loader reads. -/
structure RitaRow where
  review_id : String
  rita_aspect : String

/-- Embeds the row body of `load_rita_aspects`: split the aspect cell on
commas, normalize each piece, and drop pieces that normalize to the empty
string. -/
def parseRitaAspects (aspects_str : String) : List String :=
  ((splitComma aspects_str).map normalize_aspect_name).filter (fun a => !(a == ""))

/-- Embeds `load_rita_aspects` on the parsed data rows: each row assigns
(`reviews[review_id] = aspects`) its aspect list to its review id. -/
def load_rita_aspects (rows : List RitaRow) : List (String × List String) :=
  rows.foldl
    (fun reviews row => dictSet reviews row.review_id (parseRitaAspects row.rita_aspect)) []

/-- Embeds the column extraction of `load_gemini_aspects` for one line
(source lines 79-88): strip whitespace from both ends, strip all outer
quote characters, split on commas; fewer than two columns means the line is
discarded (`none`), otherwise columns 0 and 1 are stripped and returned. -/
def geminiLineFields (line : String) : Option (String × String) :=
  match splitComma (pyStripQuotes (pyStrip line)) with
  | p0 :: p1 :: _ => some (pyStrip p0, pyStrip p1)
  | _ => none

/-- The entry a Gemini line contributes: its review id together with the
normalized aspect, or `none` when the line is discarded or the aspect
normalizes to the empty string (source lines 84-94). -/
def geminiLineEntry (line : String) : Option (String × String) :=
  match geminiLineFields line with
  | some (review_id, aspect) =>
    let a := normalize_aspect_name aspect
    if a = "" then none else some (review_id, a)
  | none => none

/-- Embeds `load_gemini_aspects` on the file's lines: skip the header line,
then append every line's normalized aspect to its review's list. -/
def load_gemini_aspects (lines : List String) : List (String × List String) :=
  (lines.drop 1).foldl
    (fun reviews line =>
      match geminiLineEntry line with
      | some (review_id, a) => dictAppend reviews review_id a
      | none => reviews) []

/-! ### Metric Calculator (`calculate_metrics`, source lines 98-147) -/

/-- The tuple returned by `calculate_metrics`.  The three metrics are Python
floats, modelled as rationals. -/
structure MetricResult where
  «recall» : ℚ
  precision : ℚ
  f1 : ℚ
  tp : ℕ
  fn : ℕ
  fp : ℕ
  details : String
deriving DecidableEq

/-- Python `set(a.lower() for a in l)`: the distinct lower-cased labels.
`List.dedup` fixes one enumeration order of the set; every use below is
order-insensitive (lengths, membership, sorted output). -/
def lowerSet (l : List String) : List String :=
  (l.map pyLower).dedup

/-- Embeds `calculate_metrics`: the three degenerate branches for empty
inputs, then the set-based confusion counts and metrics. -/
def calculate_metrics (rita_aspects gemini_aspects : List String) : MetricResult :=
  if rita_aspects = [] ∧ gemini_aspects = [] then
    ⟨1, 1, 1, 0, 0, 0, "Both empty"⟩
  else if rita_aspects = [] then
    ⟨0, 0, 0, 0, 0, gemini_aspects.length, "Rita has no aspects"⟩
  else if gemini_aspects = [] then
    ⟨0, 0, 0, 0, rita_aspects.length, 0, "Gemini found no aspects"⟩
  else
    let rita_set := lowerSet rita_aspects
    let gemini_set := lowerSet gemini_aspects
    let «matches» := rita_set.filter (fun a => decide (a ∈ gemini_set))
    let missed := rita_set.filter (fun a => decide (a ∉ gemini_set))
    let extra := gemini_set.filter (fun a => decide (a ∉ rita_set))
    let tp := «matches».length
    let fn := missed.length
    let fp := extra.length
    let «recall» : ℚ := if 0 < rita_set.length then (tp : ℚ) / (rita_set.length : ℚ) else 0
    let precision : ℚ := if 0 < gemini_set.length then (tp : ℚ) / (gemini_set.length : ℚ) else 0
    let f1 : ℚ :=
      if 0 < «recall» + precision then 2 * («recall» * precision) / («recall» + precision) else 0
    let detailParts :=
      (if «matches» ≠ [] then
        ["Matched: " ++ joinSep ", " (List.insertionSort strLeR «matches»)] else []) ++
      (if 0 < fn then
        ["Missed: " ++ joinSep ", " (List.insertionSort strLeR missed)] else []) ++
      (if 0 < fp then
        ["Extra: " ++ joinSep ", " (List.insertionSort strLeR extra)] else [])
    let details := if detailParts ≠ [] then joinSep " | " detailParts else "Perfect match"
    ⟨«recall», precision, f1, tp, fn, fp, details⟩

/-- Guarded rational division: `none` exactly when the denominator is zero.
Used to make the division sites of `calculate_metrics` explicit. -/
def ratDiv (a b : ℚ) : Option ℚ :=
  if b = 0 then none else some (a / b)

/-- Variant of `calculate_metrics` in which every division of the source is
replaced by the guarded `ratDiv`, so that a division by zero would surface
as `none` instead of being absorbed by total division. -/
def calculate_metricsChecked (rita_aspects gemini_aspects : List String) :
    Option MetricResult :=
  if rita_aspects = [] ∧ gemini_aspects = [] then
    some ⟨1, 1, 1, 0, 0, 0, "Both empty"⟩
  else if rita_aspects = [] then
    some ⟨0, 0, 0, 0, 0, gemini_aspects.length, "Rita has no aspects"⟩
  else if gemini_aspects = [] then
    some ⟨0, 0, 0, 0, rita_aspects.length, 0, "Gemini found no aspects"⟩
  else
    let rita_set := lowerSet rita_aspects
    let gemini_set := lowerSet gemini_aspects
    let «matches» := rita_set.filter (fun a => decide (a ∈ gemini_set))
    let missed := rita_set.filter (fun a => decide (a ∉ gemini_set))
    let extra := gemini_set.filter (fun a => decide (a ∉ rita_set))
    let tp := «matches».length
    let fn := missed.length
    let fp := extra.length
    Option.bind
      (if 0 < rita_set.length then ratDiv (tp : ℚ) (rita_set.length : ℚ) else some 0)
      fun «recall» =>
    Option.bind
      (if 0 < gemini_set.length then ratDiv (tp : ℚ) (gemini_set.length : ℚ) else some 0)
      fun precision =>
    Option.bind
      (if 0 < «recall» + precision
       then ratDiv (2 * («recall» * precision)) («recall» + precision) else some 0)
      fun f1 =>
    let detailParts :=
      (if «matches» ≠ [] then
        ["Matched: " ++ joinSep ", " (List.insertionSort strLeR «matches»)] else []) ++
      (if 0 < fn then
        ["Missed: " ++ joinSep ", " (List.insertionSort strLeR missed)] else []) ++
      (if 0 < fp then
        ["Extra: " ++ joinSep ", " (List.insertionSort strLeR extra)] else [])
    let details := if detailParts ≠ [] then joinSep " | " detailParts else "Perfect match"
    some ⟨«recall», precision, f1, tp, fn, fp, details⟩

/-! ### Audit Driver (`run_audit`, source lines 149-316) -/

/-- Rounds a rational to the nearest integer with ties to even, the rounding
Python applies when formatting a float with three decimals. -/
def roundHalfEven (q : ℚ) : ℤ :=
  let n := ⌊q⌋
  if q - n < 1 / 2 then n
  else if (1 : ℚ) / 2 < q - n then n + 1
  else if n % 2 = 0 then n else n + 1

/-- The numeric value of `f"{q:.3f}"`: `q` rounded to three decimals.  This is
also the value Python's `float` recovers when the driver parses the formatted
`F1_Score` cell back for sorting. -/
def round3 (q : ℚ) : ℚ :=
  (roundHalfEven (q * 1000) : ℚ) / 1000

/-- Left-pads a natural number below 1000 with zeros to three digits. -/
def pad3 (n : ℕ) : String :=
  if n < 10 then "00" ++ Nat.repr n
  else if n < 100 then "0" ++ Nat.repr n
  else Nat.repr n

/-- Python `f"{q:.3f}"` for the non-negative metric values of this program. -/
def fmt3 (q : ℚ) : String :=
  let n := (roundHalfEven (q * 1000)).toNat
  Nat.repr (n / 1000) ++ "." ++ pad3 (n % 1000)

/-- One entry of the `results` list built by `run_audit` for one review. -/
structure AuditRow where
  review_id : String
  rita_aspects : List String
  gemini_aspects : List String
  metrics : MetricResult
deriving DecidableEq

/-- The fixed header of the output CSV, i.e. the key order of the `results`
dictionaries. -/
def csvHeader : List String :=
  ["Review_ID", "Rita_Aspects", "Rita_Count", "Gemini_Aspects", "Gemini_Count",
   "True_Positives", "False_Negatives", "False_Positives",
   "Recall", "Precision", "F1_Score", "Details"]

/-- The CSV cells of one result row, in the header's order (source lines
188-201). -/
def rowCells (row : AuditRow) : List String :=
  [row.review_id,
   if row.rita_aspects ≠ [] then joinSep ", " row.rita_aspects else "NONE",
   Nat.repr row.rita_aspects.length,
   if row.gemini_aspects ≠ [] then joinSep ", " row.gemini_aspects else "NONE",
   Nat.repr row.gemini_aspects.length,
   Nat.repr row.metrics.tp,
   Nat.repr row.metrics.fn,
   Nat.repr row.metrics.fp,
   fmt3 row.metrics.«recall»,
   fmt3 row.metrics.precision,
   fmt3 row.metrics.f1,
   row.metrics.details]

/-- The sorted union of review ids of both loaded dictionaries:
`sorted(set(rita_data.keys()) | set(gemini_data.keys()))`. -/
def allReviews (rita_data gemini_data : List (String × List String)) : List String :=
  List.insertionSort strLeR (rita_data.map Prod.fst ++ gemini_data.map Prod.fst).dedup

/-- Embeds the per-review loop of `run_audit` (source lines 180-208): one
result row per review id in the sorted key union, defaulting a missing id to
the empty aspect list. -/
def auditRows (rita_data gemini_data : List (String × List String)) : List AuditRow :=
  (allReviews rita_data gemini_data).map (fun review_id =>
    let rita := (List.lookup review_id rita_data).getD []
    let gemini := (List.lookup review_id gemini_data).getD []
    ⟨review_id, rita, gemini, calculate_metrics rita gemini⟩)

/-- Embeds the output-file writing of `run_audit` (source lines 212-216): the
written rows, as lists of cells.  When `results` is empty nothing at all is
written, not even the header. -/
def auditOutput (rita_data gemini_data : List (String × List String)) :
    List (List String) :=
  let rows := auditRows rita_data gemini_data
  if rows = [] then [] else csvHeader :: rows.map rowCells

/-- Embeds the decision of `run_audit` (source line 268): the positive branch
is chosen iff the micro-F1 percentage is at least 80. -/
def decisionIsGreen (micro_f1 : ℚ) : Bool :=
  decide (80 ≤ micro_f1)

/-- The sort key of the worst-cases listing: `float(r['F1_Score'])`, i.e. the
row's F1 after the three-decimal formatting round-trip. -/
def f1Cell (r : AuditRow) : ℚ :=
  round3 r.metrics.f1

/-- Order on result rows by their formatted F1 cell. -/
def f1Le (a b : AuditRow) : Prop :=
  f1Cell a ≤ f1Cell b

instance : DecidableRel f1Le := fun a b =>
  inferInstanceAs (Decidable (f1Cell a ≤ f1Cell b))

/-- Embeds the worst-cases listing of the negative branch (source lines
296-302): sort the result rows ascending by formatted F1 and print the first
ten whose F1 cell is below 0.50. -/
def worstCases (results : List AuditRow) : List AuditRow :=
  ((List.insertionSort f1Le results).filter (fun r => decide (f1Cell r < 1 / 2))).take 10

/-! ### The specification's description of the Gemini line transformation

Claim C5 describes the per-line transformation with "stripping trailing
whitespace" and "stripping exactly one layer of leading/trailing quote
characters".  The following definitions follow those words so they can be
compared with `geminiLineFields`, the transformation the source performs.
-/

/-- Removes one leading occurrence of `c`, if present. -/
def dropOneStartChar (c : Char) : List Char → List Char
  | [] => []
  | x :: xs => if x = c then xs else x :: xs

/-- Removes at most one leading and one trailing quote character. -/
def stripOneQuoteLayer (s : String) : String :=
  String.mk ((dropOneStartChar '"' (dropOneStartChar '"' s.data).reverse).reverse)

/-- Removes trailing whitespace only. -/
def pyStripTrailing (s : String) : String :=
  String.mk (dropEndWhile Char.isWhitespace s.data)

/-- Per-line transformation in the words of claim C5: strip trailing
whitespace, strip exactly one layer of outer quotes, split on commas, read
columns 0 and 1 (each stripped, as the source strips the columns it reads). -/
def geminiLineFieldsSpec (line : String) : Option (String × String) :=
  match splitComma (stripOneQuoteLayer (pyStripTrailing line)) with
  | p0 :: p1 :: _ => some (pyStrip p0, pyStrip p1)
  | _ => none

/-! ### Order facts about the sort relations -/

theorem lexLe_trans : ∀ a b c : List Char,
    lexLe a b = true → lexLe b c = true → lexLe a c = true
  | [], _, _, _, _ => rfl
  | _ :: _, [], _, h, _ => by simp [lexLe] at h
  | _ :: _, _ :: _, [], _, h => by simp [lexLe] at h
  | x :: xs, y :: ys, z :: zs, h1, h2 => by
    simp only [lexLe, Bool.or_eq_true, Bool.and_eq_true, decide_eq_true_eq] at h1 h2 ⊢
    rcases h1 with h1 | ⟨rfl, h1⟩
    · rcases h2 with h2 | ⟨rfl, h2⟩
      · exact Or.inl (lt_trans h1 h2)
      · exact Or.inl h1
    · rcases h2 with h2 | ⟨rfl, h2⟩
      · exact Or.inl h2
      · exact Or.inr ⟨rfl, lexLe_trans xs ys zs h1 h2⟩

theorem lexLe_total : ∀ a b : List Char, lexLe a b = true ∨ lexLe b a = true
  | [], _ => Or.inl rfl
  | _ :: _, [] => Or.inr rfl
  | x :: xs, y :: ys => by
    simp only [lexLe, Bool.or_eq_true, Bool.and_eq_true, decide_eq_true_eq]
    rcases lt_trichotomy x y with h | rfl | h
    · exact Or.inl (Or.inl h)
    · rcases lexLe_total xs ys with h | h
      · exact Or.inl (Or.inr ⟨rfl, h⟩)
      · exact Or.inr (Or.inr ⟨rfl, h⟩)
    · exact Or.inr (Or.inl h)

instance : IsTrans String strLeR :=
  ⟨fun a b c => lexLe_trans a.data b.data c.data⟩

instance : IsTotal String strLeR :=
  ⟨fun a b => lexLe_total a.data b.data⟩

instance : IsTrans AuditRow f1Le :=
  ⟨fun _ _ _ h1 h2 => le_trans h1 h2⟩

instance : IsTotal AuditRow f1Le :=
  ⟨fun a b => le_total (f1Cell a) (f1Cell b)⟩

/-! ### Dictionary lookup lemmas -/

theorem lookup_append (x : String) (t s : List (String × α)) :
    List.lookup x (t ++ s) = (List.lookup x t).or (List.lookup x s) := by
  induction t with
  | nil => simp
  | cons p t ih =>
    obtain ⟨p1, p2⟩ := p
    rcases eq_or_ne x p1 with he | he
    · subst he; simp [List.lookup_cons]
    · simp [List.lookup_cons, beq_eq_false_iff_ne.mpr he, ih]

theorem lookup_isSome_iff_any (x : String) (t : List (String × α)) :
    (List.lookup x t).isSome = t.any (fun p => p.1 == x) := by
  induction t with
  | nil => simp
  | cons p t ih =>
    obtain ⟨p1, p2⟩ := p
    rcases eq_or_ne x p1 with he | he
    · subst he; simp [List.lookup_cons]
    · simp [List.lookup_cons, beq_eq_false_iff_ne.mpr he,
        beq_eq_false_iff_ne.mpr (Ne.symm he), ih]

theorem lookup_map_replace (k : String) (v : α) (t : List (String × α)) :
    List.lookup k (t.map (fun p => if p.1 = k then (k, v) else p)) =
      (List.lookup k t).map (fun _ => v) := by
  induction t with
  | nil => rfl
  | cons p t ih =>
    obtain ⟨p1, p2⟩ := p
    rcases eq_or_ne k p1 with he | he
    · subst he; simp [List.lookup_cons]
    · simp [List.lookup_cons, Ne.symm he, beq_eq_false_iff_ne.mpr he, ih]

theorem lookup_map_replace_ne (k k' : String) (v : α) (hne : k' ≠ k)
    (t : List (String × α)) :
    List.lookup k' (t.map (fun p => if p.1 = k then (k, v) else p)) =
      List.lookup k' t := by
  induction t with
  | nil => rfl
  | cons p t ih =>
    obtain ⟨p1, p2⟩ := p
    by_cases hp : p1 = k
    · have hb2 : (k' == p1) = false := beq_eq_false_iff_ne.mpr (fun h => hne (h.trans hp))
      simp [List.lookup_cons, hp, hb2, beq_eq_false_iff_ne.mpr hne, ih]
    · rcases eq_or_ne k' p1 with he | he
      · subst he; simp [List.lookup_cons, hp]
      · simp [List.lookup_cons, hp, beq_eq_false_iff_ne.mpr he, ih]

theorem lookup_map_appendval (k a : String) (t : List (String × List String)) :
    List.lookup k (t.map (fun p => if p.1 = k then (p.1, p.2 ++ [a]) else p)) =
      (List.lookup k t).map (fun l => l ++ [a]) := by
  induction t with
  | nil => rfl
  | cons p t ih =>
    obtain ⟨p1, p2⟩ := p
    rcases eq_or_ne k p1 with he | he
    · subst he; simp [List.lookup_cons]
    · simp [List.lookup_cons, Ne.symm he, beq_eq_false_iff_ne.mpr he, ih]

theorem lookup_map_appendval_ne (k k' a : String) (hne : k' ≠ k)
    (t : List (String × List String)) :
    List.lookup k' (t.map (fun p => if p.1 = k then (p.1, p.2 ++ [a]) else p)) =
      List.lookup k' t := by
  induction t with
  | nil => rfl
  | cons p t ih =>
    obtain ⟨p1, p2⟩ := p
    by_cases hp : p1 = k
    · have hb2 : (k' == p1) = false := beq_eq_false_iff_ne.mpr (fun h => hne (h.trans hp))
      simp [List.lookup_cons, hp, hb2, beq_eq_false_iff_ne.mpr hne, ih]
    · rcases eq_or_ne k' p1 with he | he
      · subst he; simp [List.lookup_cons, hp]
      · simp [List.lookup_cons, hp, beq_eq_false_iff_ne.mpr he, ih]

theorem lookup_dictSet_self (m : List (String × α)) (k : String) (v : α) :
    List.lookup k (dictSet m k v) = some v := by
  unfold dictSet
  split
  · rename_i h
    rw [lookup_map_replace]
    rw [← lookup_isSome_iff_any] at h
    obtain ⟨w, hw⟩ := Option.isSome_iff_exists.mp h
    rw [hw]; rfl
  · rename_i h
    rw [lookup_append]
    have hnone : List.lookup k m = none := by
      have := lookup_isSome_iff_any k m
      rw [eq_false_of_ne_true h] at this
      exact Option.not_isSome_iff_eq_none.mp (by simp [this])
    rw [hnone]
    simp [List.lookup_cons]

theorem lookup_dictSet_ne (m : List (String × α)) (k k' : String) (v : α)
    (hne : k' ≠ k) : List.lookup k' (dictSet m k v) = List.lookup k' m := by
  unfold dictSet
  split
  · exact lookup_map_replace_ne k k' v hne m
  · rw [lookup_append]
    simp [List.lookup_cons, beq_eq_false_iff_ne.mpr hne]

theorem lookup_dictAppend_self (m : List (String × List String)) (k : String)
    (a : String) :
    List.lookup k (dictAppend m k a) = some ((List.lookup k m).getD [] ++ [a]) := by
  unfold dictAppend
  split
  · rename_i h
    rw [lookup_map_appendval]
    rw [← lookup_isSome_iff_any] at h
    obtain ⟨w, hw⟩ := Option.isSome_iff_exists.mp h
    rw [hw]; rfl
  · rename_i h
    rw [lookup_append]
    have hnone : List.lookup k m = none := by
      have := lookup_isSome_iff_any k m
      rw [eq_false_of_ne_true h] at this
      exact Option.not_isSome_iff_eq_none.mp (by simp [this])
    rw [hnone]
    simp [List.lookup_cons]

theorem lookup_dictAppend_ne (m : List (String × List String)) (k k' : String)
    (a : String) (hne : k' ≠ k) :
    List.lookup k' (dictAppend m k a) = List.lookup k' m := by
  unfold dictAppend
  split
  · exact lookup_map_appendval_ne k k' a hne m
  · rw [lookup_append]
    simp [List.lookup_cons, beq_eq_false_iff_ne.mpr hne]

/-! ### Loader characterizations -/

theorem lookup_load_rita_fold (rows : List RitaRow) (m : List (String × List String))
    (k : String) :
    List.lookup k (rows.foldl
        (fun reviews row => dictSet reviews row.review_id (parseRitaAspects row.rita_aspect)) m) =
      ((rows.reverse.find? (fun r => r.review_id == k)).map
        (fun r => parseRitaAspects r.rita_aspect)).or (List.lookup k m) := by
  induction rows generalizing m with
  | nil => simp
  | cons r rs ih =>
    rw [List.foldl_cons, ih, List.reverse_cons, List.find?_append]
    rcases hf : rs.reverse.find? (fun r => r.review_id == k) with _ | w
    · by_cases hr : r.review_id = k
      · subst hr
        simp [hf, List.find?, lookup_dictSet_self]
      · have hb : (r.review_id == k) = false := by simpa using hr
        rw [lookup_dictSet_ne m r.review_id k _ (fun h => hr h.symm)]
        simp [hf, List.find?, hb]
    · simp [hf]

theorem lookup_load_rita (rows : List RitaRow) (k : String) :
    List.lookup k (load_rita_aspects rows) =
      (rows.reverse.find? (fun r => r.review_id == k)).map
        (fun r => parseRitaAspects r.rita_aspect) := by
  rw [load_rita_aspects, lookup_load_rita_fold]
  simp

/-- The aspects the data lines `ls` contribute to review `k`, in line order. -/
def geminiContribsAux (ls : List String) (k : String) : List String :=
  ((ls.filterMap geminiLineEntry).filter (fun p => p.1 == k)).map Prod.snd

/-- The aspects the Gemini file (header line included) contributes to review
`k`, in line order. -/
def geminiContribs (lines : List String) (k : String) : List String :=
  geminiContribsAux (lines.drop 1) k

theorem lookup_gemini_fold (ls : List String) (m : List (String × List String))
    (k : String) :
    List.lookup k (ls.foldl
        (fun reviews line =>
          match geminiLineEntry line with
          | some (review_id, a) => dictAppend reviews review_id a
          | none => reviews) m) =
      if geminiContribsAux ls k = [] then List.lookup k m
      else some ((List.lookup k m).getD [] ++ geminiContribsAux ls k) := by
  induction ls generalizing m with
  | nil => simp [geminiContribsAux]
  | cons l t ih =>
    rw [List.foldl_cons]
    rcases he : geminiLineEntry l with _ | ⟨rid, a⟩
    · simp only [he]
      rw [ih]
      have hcontrib : geminiContribsAux (l :: t) k = geminiContribsAux t k := by
        simp [geminiContribsAux, List.filterMap_cons_none he]
      rw [hcontrib]
    · simp only [he]
      by_cases hk : k = rid
      · subst hk
        have hcontrib : geminiContribsAux (l :: t) k = a :: geminiContribsAux t k := by
          simp [geminiContribsAux, List.filterMap_cons_some he, List.filter_cons]
        rw [ih, hcontrib, lookup_dictAppend_self]
        by_cases hc : geminiContribsAux t k = []
        · simp [hc]
        · simp only [if_neg hc, if_neg (by simp : ¬(a :: geminiContribsAux t k = []))]
          simp [List.append_assoc]
      · have hcontrib : geminiContribsAux (l :: t) k = geminiContribsAux t k := by
          have hb : (rid == k) = false := beq_eq_false_iff_ne.mpr (fun h => hk h.symm)
          simp [geminiContribsAux, List.filterMap_cons, he, List.filter_cons, hb]
        rw [ih, hcontrib, lookup_dictAppend_ne _ _ _ _ hk]

theorem lookup_load_gemini (lines : List String) (k : String) :
    List.lookup k (load_gemini_aspects lines) =
      if geminiContribs lines k = [] then none
      else some (geminiContribs lines k) := by
  rw [load_gemini_aspects, lookup_gemini_fold]
  rcases h : geminiContribs lines k with _ | ⟨a, t⟩
  · simp only [geminiContribs, List.drop_one] at h
    simp [h]
  · simp only [geminiContribs, List.drop_one] at h
    simp [h]

/-! ### Set cardinality bridges

`calculate_metrics` manipulates Python sets through `lowerSet`, a dedup'd
list.  These lemmas restate the resulting lengths as `Finset` cardinalities,
the language of the claims.
-/

theorem dedup_toFinset {α : Type} [DecidableEq α] (l : List α) :
    l.dedup.toFinset = l.toFinset := by
  ext a; simp

theorem length_filter_mem {α : Type} [DecidableEq α] (l₁ l₂ : List α) :
    ((l₁.dedup).filter (fun a => decide (a ∈ l₂.dedup))).length =
      (l₁.toFinset ∩ l₂.toFinset).card := by
  have hnd : ((l₁.dedup).filter (fun a => decide (a ∈ l₂.dedup))).Nodup :=
    (List.nodup_dedup l₁).filter _
  rw [← List.toFinset_card_of_nodup hnd, List.toFinset_filter, dedup_toFinset]
  congr 1
  ext a
  simp [List.mem_dedup]

theorem length_filter_not_mem {α : Type} [DecidableEq α] (l₁ l₂ : List α) :
    ((l₁.dedup).filter (fun a => decide (a ∉ l₂.dedup))).length =
      (l₁.toFinset \ l₂.toFinset).card := by
  have hnd : ((l₁.dedup).filter (fun a => decide (a ∉ l₂.dedup))).Nodup :=
    (List.nodup_dedup l₁).filter _
  rw [← List.toFinset_card_of_nodup hnd, List.toFinset_filter, dedup_toFinset]
  congr 1
  ext a
  simp [List.mem_dedup]

theorem lowerSet_length (l : List String) :
    (lowerSet l).length = (l.map pyLower).toFinset.card :=
  (List.card_toFinset _).symm

theorem lowerSet_pos (l : List String) (h : l ≠ []) : 0 < (lowerSet l).length := by
  rw [lowerSet, List.length_pos]
  simpa [List.dedup_eq_nil] using h

/-! ### Projections of the non-degenerate branch of `calculate_metrics` -/

theorem cm_tp (r c : List String) (hr : r ≠ []) (hc : c ≠ []) :
    (calculate_metrics r c).tp =
      ((lowerSet r).filter (fun a => decide (a ∈ lowerSet c))).length := by
  unfold calculate_metrics
  rw [if_neg (fun h => hr h.1), if_neg hr, if_neg hc]

theorem cm_fn (r c : List String) (hr : r ≠ []) (hc : c ≠ []) :
    (calculate_metrics r c).fn =
      ((lowerSet r).filter (fun a => decide (a ∉ lowerSet c))).length := by
  unfold calculate_metrics
  rw [if_neg (fun h => hr h.1), if_neg hr, if_neg hc]

theorem cm_fp (r c : List String) (hr : r ≠ []) (hc : c ≠ []) :
    (calculate_metrics r c).fp =
      ((lowerSet c).filter (fun a => decide (a ∉ lowerSet r))).length := by
  unfold calculate_metrics
  rw [if_neg (fun h => hr h.1), if_neg hr, if_neg hc]

theorem cm_recall_raw (r c : List String) (hr : r ≠ []) (hc : c ≠ []) :
    (calculate_metrics r c).«recall» =
      if 0 < (lowerSet r).length
      then ((calculate_metrics r c).tp : ℚ) / ((lowerSet r).length : ℚ) else 0 := by
  rw [cm_tp r c hr hc]
  unfold calculate_metrics
  rw [if_neg (fun h => hr h.1), if_neg hr, if_neg hc]

theorem cm_precision_raw (r c : List String) (hr : r ≠ []) (hc : c ≠ []) :
    (calculate_metrics r c).precision =
      if 0 < (lowerSet c).length
      then ((calculate_metrics r c).tp : ℚ) / ((lowerSet c).length : ℚ) else 0 := by
  rw [cm_tp r c hr hc]
  unfold calculate_metrics
  rw [if_neg (fun h => hr h.1), if_neg hr, if_neg hc]

theorem cm_f1_raw (r c : List String) (hr : r ≠ []) (hc : c ≠ []) :
    (calculate_metrics r c).f1 =
      if 0 < (calculate_metrics r c).«recall» + (calculate_metrics r c).precision
      then 2 * ((calculate_metrics r c).«recall» * (calculate_metrics r c).precision) /
        ((calculate_metrics r c).«recall» + (calculate_metrics r c).precision)
      else 0 := by
  unfold calculate_metrics
  rw [if_neg (fun h => hr h.1), if_neg hr, if_neg hc]

theorem cm_recall (r c : List String) (hr : r ≠ []) (hc : c ≠ []) :
    (calculate_metrics r c).«recall» =
      ((calculate_metrics r c).tp : ℚ) / (((r.map pyLower).toFinset.card : ℕ) : ℚ) := by
  rw [cm_recall_raw r c hr hc, if_pos (lowerSet_pos r hr), lowerSet_length]

theorem cm_precision (r c : List String) (hr : r ≠ []) (hc : c ≠ []) :
    (calculate_metrics r c).precision =
      ((calculate_metrics r c).tp : ℚ) / (((c.map pyLower).toFinset.card : ℕ) : ℚ) := by
  rw [cm_precision_raw r c hr hc, if_pos (lowerSet_pos c hc), lowerSet_length]

theorem cm_recall_nonneg (r c : List String) (hr : r ≠ []) (hc : c ≠ []) :
    0 ≤ (calculate_metrics r c).«recall» := by
  rw [cm_recall_raw r c hr hc, if_pos (lowerSet_pos r hr)]
  positivity

theorem cm_precision_nonneg (r c : List String) (hr : r ≠ []) (hc : c ≠ []) :
    0 ≤ (calculate_metrics r c).precision := by
  rw [cm_precision_raw r c hr hc, if_pos (lowerSet_pos c hc)]
  positivity

/-! ### Degenerate branches of `calculate_metrics` -/

theorem cm_empty_empty :
    calculate_metrics [] [] = ⟨1, 1, 1, 0, 0, 0, "Both empty"⟩ := rfl

theorem cm_empty_left (c : List String) (hc : c ≠ []) :
    calculate_metrics [] c = ⟨0, 0, 0, 0, 0, c.length, "Rita has no aspects"⟩ := by
  unfold calculate_metrics
  rw [if_neg (fun h => hc h.2), if_pos rfl]

theorem cm_empty_right (r : List String) (hr : r ≠ []) :
    calculate_metrics r [] = ⟨0, 0, 0, 0, r.length, 0, "Gemini found no aspects"⟩ := by
  unfold calculate_metrics
  rw [if_neg (fun h => hr h.1), if_neg hr, if_pos rfl]

theorem cm_recall_le_one (r c : List String) (hr : r ≠ []) (hc : c ≠ []) :
    (calculate_metrics r c).«recall» ≤ 1 := by
  rw [cm_recall_raw r c hr hc, if_pos (lowerSet_pos r hr)]
  rw [div_le_one (by exact_mod_cast lowerSet_pos r hr)]
  have h := List.length_filter_le (fun a => decide (a ∈ lowerSet c)) (lowerSet r)
  rw [cm_tp r c hr hc]
  exact_mod_cast h

theorem cm_precision_le_one (r c : List String) (hr : r ≠ []) (hc : c ≠ []) :
    (calculate_metrics r c).precision ≤ 1 := by
  rw [cm_precision_raw r c hr hc, if_pos (lowerSet_pos c hc)]
  rw [div_le_one (by exact_mod_cast lowerSet_pos c hc)]
  have h := List.length_filter_le (fun a => decide (a ∈ lowerSet c)) (lowerSet r)
  rw [cm_tp r c hr hc]
  have h2 : ((lowerSet r).filter (fun a => decide (a ∈ lowerSet c))).length ≤
      (lowerSet c).length := by
    have hsub : ((lowerSet r).filter (fun a => decide (a ∈ lowerSet c))).Sublist
        (lowerSet r) := List.filter_sublist _
    have hnd : ((lowerSet r).filter (fun a => decide (a ∈ lowerSet c))).Nodup :=
      (List.nodup_dedup _).filter _
    have hmem : ∀ a ∈ (lowerSet r).filter (fun a => decide (a ∈ lowerSet c)),
        a ∈ lowerSet c := by
      intro a ha
      have := List.of_mem_filter ha
      simpa using this
    calc ((lowerSet r).filter (fun a => decide (a ∈ lowerSet c))).length
        = ((lowerSet r).filter (fun a => decide (a ∈ lowerSet c))).toFinset.card :=
          (List.toFinset_card_of_nodup hnd).symm
      _ ≤ (lowerSet c).toFinset.card := by
          apply Finset.card_le_card
          intro a ha
          rw [List.mem_toFinset] at ha ⊢
          exact hmem a ha
      _ ≤ (lowerSet c).length := List.toFinset_card_le _
  exact_mod_cast h2

/-! ## Claims -/

/-- Claim C3: the Aspect Normalizer is idempotent on inputs already in
canonical form, its synonym lookup is case-insensitive on the trimmed
lower-cased input (so both spellings of Material/Quality normalize to the
canonical label), and when no table entry matches it returns the trimmed
original string with case preserved. -/
theorem claim_C3 :
    (∀ c ∈ canonicalAspects,
      normalize_aspect_name (normalize_aspect_name c) = normalize_aspect_name c) ∧
    (normalize_aspect_name "Material/ Quality" = "Material/Quality" ∧
      normalize_aspect_name "material/quality" = "Material/Quality") ∧
    (∀ s : String, aspectMapping.lookup (pyLower (pyStrip s)) = none →
      normalize_aspect_name s = pyStrip s) := by
  refine ⟨by decide, ⟨by decide, by decide⟩, ?_⟩
  intro s h
  unfold normalize_aspect_name
  simp only [h]

/-- Witness for claim C3 at concrete inputs: the canonical label `Comfort`
and the unknown label `Brand Reputation`. -/
theorem claim_C3_witness :
    normalize_aspect_name (normalize_aspect_name "Comfort") = normalize_aspect_name "Comfort" ∧
    normalize_aspect_name "Brand Reputation" = pyStrip "Brand Reputation" :=
  ⟨claim_C3.1 "Comfort" (by decide), claim_C3.2.2 "Brand Reputation" (by decide)⟩

/-- Counterexample to claim C5 as stated: on the line `""X,Comfort""` the
transformation described by the claim (strip trailing whitespace, strip
exactly one layer of outer quotes, split on commas) yields different columns
than the source's transformation, because the source also strips leading
whitespace and strips every outer quote character, not one layer. -/
theorem claim_C5_counterexample :
    geminiLineFieldsSpec "\"\"X,Comfort\"\"" ≠ geminiLineFields "\"\"X,Comfort\"\"" := by
  decide

/-- Claim C5 (amended): for every data line, `load_gemini_aspects` strips
leading and trailing whitespace, strips all leading and trailing quote
characters, then splits on commas positionally; column 0 (stripped) is the
review id and column 1 (stripped) the raw aspect, columns beyond index 1 are
ignored, and a line yielding fewer than two columns is discarded silently. -/
theorem claim_C5 :
    ∀ line : String,
      (∀ (p0 p1 : String) (rest : List String),
        splitComma (pyStripQuotes (pyStrip line)) = p0 :: p1 :: rest →
        geminiLineFields line = some (pyStrip p0, pyStrip p1)) ∧
      ((splitComma (pyStripQuotes (pyStrip line))).length < 2 →
        geminiLineFields line = none) := by
  intro line
  constructor
  · intro p0 p1 rest h
    unfold geminiLineFields
    rw [h]
  · intro h
    unfold geminiLineFields
    rcases hs : splitComma (pyStripQuotes (pyStrip line)) with _ | ⟨a, rest2⟩
    · rfl
    · rcases rest2 with _ | ⟨b, t⟩
      · rfl
      · rw [hs] at h
        simp only [List.length_cons] at h
        omega

/-- Witness for claim C5: a four-column line is reduced to its first two
columns. -/
theorem claim_C5_witness :
    geminiLineFields "RRE_001,Comfort,negative,evidence" = some ("RRE_001", "Comfort") := by
  have h := (claim_C5 "RRE_001,Comfort,negative,evidence").1 "RRE_001" "Comfort"
      ["negative", "evidence"] (by decide)
  exact h.trans (by decide)

/-- Claim C6: duplicate-key handling is asymmetric between the loaders.  In
`load_rita_aspects` a review id maps to the parsed aspects of its last row
(last-write-wins); in `load_gemini_aspects` a review id maps to the
accumulated aspects of all of its lines, in order. -/
theorem claim_C6 :
    (∀ (rows : List RitaRow) (k : String),
      List.lookup k (load_rita_aspects rows) =
        (rows.reverse.find? (fun r => r.review_id == k)).map
          (fun r => parseRitaAspects r.rita_aspect)) ∧
    (∀ (lines : List String) (k : String),
      List.lookup k (load_gemini_aspects lines) =
        if geminiContribs lines k = [] then none else some (geminiContribs lines k)) :=
  ⟨lookup_load_rita, lookup_load_gemini⟩

/-- Claim C10: a Gemini data line whose aspect normalizes to the empty string
contributes nothing at all to the loaded mapping, while a Rita row whose
aspects all normalize to empty still records its review id with an empty
list. -/
theorem claim_C10 :
    (∀ (hdr : String) (pre post : List String) (line rid asp : String),
      geminiLineFields line = some (rid, asp) →
      normalize_aspect_name asp = "" →
      load_gemini_aspects (hdr :: (pre ++ line :: post)) =
        load_gemini_aspects (hdr :: (pre ++ post))) ∧
    (∀ (rows : List RitaRow) (row : RitaRow),
      parseRitaAspects row.rita_aspect = [] →
      List.lookup row.review_id (load_rita_aspects (rows ++ [row])) = some []) := by
  constructor
  · intro hdr pre post line rid asp hf hn
    have he : geminiLineEntry line = none := by
      unfold geminiLineEntry
      rw [hf]
      simp [hn]
    unfold load_gemini_aspects
    simp only [List.drop_succ_cons, List.drop_zero]
    rw [List.foldl_append, List.foldl_cons, List.foldl_append]
    simp only [he]
  · intro rows row hparse
    rw [lookup_load_rita, List.reverse_append]
    simp [List.find?, hparse]

/-- Witness for claim C10: a whitespace-only aspect line leaves the Gemini
mapping unchanged, and an all-empty Rita row records an empty list. -/
theorem claim_C10_witness :
    load_gemini_aspects ["Review_ID,Aspect", "X, ,positive"] =
      load_gemini_aspects ["Review_ID,Aspect"] ∧
    List.lookup "A" (load_rita_aspects [⟨"A", " , "⟩]) = some [] := by
  constructor
  · exact claim_C10.1 "Review_ID,Aspect" [] [] "X, ,positive" "X" "" (by decide) (by decide)
  · exact claim_C10.2 [] ⟨"A", " , "⟩ (by decide)

/-- Claim C1: `calculate_metrics` follows the degenerate-case policy table
(both empty: all metrics 1 and counts 0; empty reference: all metrics 0,
`fp = len(candidate)`; empty candidate: all metrics 0, `fn = len(reference)`)
and otherwise case-folds both lists into sets and computes the confusion
counts, recall, precision and F1 from them. -/
theorem claim_C1 :
    ∀ reference candidate : List String,
      (reference = [] → candidate = [] →
        calculate_metrics reference candidate = ⟨1, 1, 1, 0, 0, 0, "Both empty"⟩) ∧
      (reference = [] → candidate ≠ [] →
        calculate_metrics reference candidate =
          ⟨0, 0, 0, 0, 0, candidate.length, "Rita has no aspects"⟩) ∧
      (reference ≠ [] → candidate = [] →
        calculate_metrics reference candidate =
          ⟨0, 0, 0, 0, reference.length, 0, "Gemini found no aspects"⟩) ∧
      (reference ≠ [] → candidate ≠ [] →
        (calculate_metrics reference candidate).tp =
          ((reference.map pyLower).toFinset ∩ (candidate.map pyLower).toFinset).card ∧
        (calculate_metrics reference candidate).fn =
          ((reference.map pyLower).toFinset \ (candidate.map pyLower).toFinset).card ∧
        (calculate_metrics reference candidate).fp =
          ((candidate.map pyLower).toFinset \ (reference.map pyLower).toFinset).card ∧
        (calculate_metrics reference candidate).«recall» =
          ((calculate_metrics reference candidate).tp : ℚ) /
            ((reference.map pyLower).toFinset.card : ℚ) ∧
        (calculate_metrics reference candidate).precision =
          ((calculate_metrics reference candidate).tp : ℚ) /
            ((candidate.map pyLower).toFinset.card : ℚ) ∧
        (calculate_metrics reference candidate).f1 =
          (if (calculate_metrics reference candidate).«recall» +
              (calculate_metrics reference candidate).precision = 0 then 0
           else 2 * (calculate_metrics reference candidate).«recall» *
              (calculate_metrics reference candidate).precision /
             ((calculate_metrics reference candidate).«recall» +
              (calculate_metrics reference candidate).precision))) := by
  intro r c
  refine ⟨?_, ?_, ?_, ?_⟩
  · rintro rfl rfl; rfl
  · rintro rfl hc
    exact cm_empty_left c hc
  · intro hr hc
    subst hc
    exact cm_empty_right r hr
  · intro hr hc
    refine ⟨(cm_tp r c hr hc).trans (length_filter_mem _ _),
      (cm_fn r c hr hc).trans (length_filter_not_mem _ _),
      (cm_fp r c hr hc).trans (length_filter_not_mem _ _),
      cm_recall r c hr hc, cm_precision r c hr hc, ?_⟩
    rw [cm_f1_raw r c hr hc]
    have h1 : 0 ≤ (calculate_metrics r c).«recall» := cm_recall_nonneg r c hr hc
    have h2 : 0 ≤ (calculate_metrics r c).precision := cm_precision_nonneg r c hr hc
    by_cases h0 : (calculate_metrics r c).«recall» + (calculate_metrics r c).precision = 0
    · rw [if_neg (by rw [h0]; exact lt_irrefl 0), if_pos h0]
    · have hpos : 0 < (calculate_metrics r c).«recall» + (calculate_metrics r c).precision :=
        lt_of_le_of_ne (add_nonneg h1 h2) (Ne.symm h0)
      rw [if_pos hpos, if_neg h0, mul_assoc]

/-- Witness for claim C1: the empty-reference branch at `([], ["X"])` and the
set-based true-positive count at `(["A"], ["a"])`. -/
theorem claim_C1_witness :
    calculate_metrics [] ["X"] = ⟨0, 0, 0, 0, 0, 1, "Rita has no aspects"⟩ ∧
    (calculate_metrics ["A"] ["a"]).tp =
      ((["A"].map pyLower).toFinset ∩ (["a"].map pyLower).toFinset).card := by
  constructor
  · exact (claim_C1 [] ["X"]).2.1 rfl (by decide)
  · exact ((claim_C1 ["A"] ["a"]).2.2.2 (by decide) (by decide)).1

/-- Counterexample to claim C2 as stated: for the pair `([], ["X", "X"])` the
code returns `fp = len(candidate) = 2`, but the normalized candidate set has
cardinality 1, so `tp + fp` differs from the candidate set size. -/
theorem claim_C2_counterexample :
    ¬ ((calculate_metrics [] ["X", "X"]).tp + (calculate_metrics [] ["X", "X"]).fp =
      ((["X", "X"].map pyLower).toFinset).card) := by
  decide

/-- Claim C2 (amended): `tp + fn = |normalized reference set|` and
`tp + fp = |normalized candidate set|` hold whenever both input lists are
non-empty, and also when both are empty; in the mixed degenerate cases the
code uses raw list lengths, so the identity can fail for lists with
duplicate or case-variant entries. -/
theorem claim_C2 :
    ∀ reference candidate : List String,
      (reference ≠ [] → candidate ≠ [] →
        (calculate_metrics reference candidate).tp +
            (calculate_metrics reference candidate).fn =
          ((reference.map pyLower).toFinset).card ∧
        (calculate_metrics reference candidate).tp +
            (calculate_metrics reference candidate).fp =
          ((candidate.map pyLower).toFinset).card) ∧
      (reference = [] → candidate = [] →
        (calculate_metrics reference candidate).tp +
            (calculate_metrics reference candidate).fn =
          ((reference.map pyLower).toFinset).card ∧
        (calculate_metrics reference candidate).tp +
            (calculate_metrics reference candidate).fp =
          ((candidate.map pyLower).toFinset).card) := by
  intro r c
  constructor
  · intro hr hc
    constructor
    · rw [cm_tp r c hr hc, cm_fn r c hr hc]
      unfold lowerSet
      rw [length_filter_mem, length_filter_not_mem]
      exact Finset.card_inter_add_card_sdiff _ _
    · rw [cm_tp r c hr hc, cm_fp r c hr hc]
      unfold lowerSet
      rw [length_filter_mem, length_filter_not_mem, Finset.inter_comm]
      exact Finset.card_inter_add_card_sdiff _ _
  · rintro rfl rfl
    exact ⟨by decide, by decide⟩

/-- Witness for claim C2 at `(["A"], ["a"])`: both identities hold with set
cardinality 1. -/
theorem claim_C2_witness :
    (calculate_metrics ["A"] ["a"]).tp + (calculate_metrics ["A"] ["a"]).fn =
      ((["A"].map pyLower).toFinset).card :=
  ((claim_C2 ["A"] ["a"]).1 (by decide) (by decide)).1

/-- Claim C9: for every pair of input label lists the returned recall,
precision and F1 lie in the interval from 0 to 1, and the confusion counts
are non-negative integers (they are natural numbers by construction). -/
theorem claim_C9 :
    ∀ reference candidate : List String,
      0 ≤ (calculate_metrics reference candidate).«recall» ∧
      (calculate_metrics reference candidate).«recall» ≤ 1 ∧
      0 ≤ (calculate_metrics reference candidate).precision ∧
      (calculate_metrics reference candidate).precision ≤ 1 ∧
      0 ≤ (calculate_metrics reference candidate).f1 ∧
      (calculate_metrics reference candidate).f1 ≤ 1 ∧
      0 ≤ (calculate_metrics reference candidate).tp ∧
      0 ≤ (calculate_metrics reference candidate).fn ∧
      0 ≤ (calculate_metrics reference candidate).fp := by
  intro r c
  by_cases hr : r = []
  · by_cases hc : c = []
    · subst hr; subst hc
      rw [cm_empty_empty]
      norm_num
    · subst hr
      rw [cm_empty_left c hc]
      norm_num
  · by_cases hc : c = []
    · subst hc
      rw [cm_empty_right r hr]
      norm_num
    · have h1 := cm_recall_nonneg r c hr hc
      have h2 := cm_precision_nonneg r c hr hc
      have h3 := cm_recall_le_one r c hr hc
      have h4 := cm_precision_le_one r c hr hc
      refine ⟨h1, h3, h2, h4, ?_, ?_, Nat.zero_le _, Nat.zero_le _, Nat.zero_le _⟩
      · rw [cm_f1_raw r c hr hc]
        by_cases h0 : 0 < (calculate_metrics r c).«recall» + (calculate_metrics r c).precision
        · rw [if_pos h0]
          exact div_nonneg (by positivity) (le_of_lt h0)
        · rw [if_neg h0]
      · rw [cm_f1_raw r c hr hc]
        by_cases h0 : 0 < (calculate_metrics r c).«recall» + (calculate_metrics r c).precision
        · rw [if_pos h0, div_le_one h0]
          nlinarith [mul_nonneg h1 (sub_nonneg.mpr h4), mul_nonneg h2 (sub_nonneg.mpr h3)]
        · rw [if_neg h0]
          norm_num

/-- Claim C7: `calculate_metrics` raises no exception for any pair of input
label lists.  The variant in which every division of the source is guarded
(returning `none` on a zero denominator) always succeeds and agrees with the
total function: the degenerate-case branches preempt every zero denominator. -/
theorem claim_C7 :
    ∀ reference candidate : List String,
      calculate_metricsChecked reference candidate =
        some (calculate_metrics reference candidate) := by
  intro r c
  by_cases hr : r = []
  · by_cases hc : c = []
    · subst hr; subst hc; rfl
    · subst hr
      simp [calculate_metrics, calculate_metricsChecked, hc]
  · by_cases hc : c = []
    · subst hc
      simp [calculate_metrics, calculate_metricsChecked, hr]
    · have hpr := lowerSet_pos r hr
      have hpc := lowerSet_pos c hc
      have hlr : ((lowerSet r).length : ℚ) ≠ 0 := by
        exact_mod_cast Nat.pos_iff_ne_zero.mp hpr
      have hlc : ((lowerSet c).length : ℚ) ≠ 0 := by
        exact_mod_cast Nat.pos_iff_ne_zero.mp hpc
      simp only [calculate_metrics, calculate_metricsChecked, ratDiv]
      rw [if_neg (fun (h : r = [] ∧ c = []) => hr h.1)]
      rw [if_neg (fun (h : r = [] ∧ c = []) => hr h.1)]
      rw [if_neg hr, if_neg hr, if_neg hc, if_neg hc]
      simp only [if_pos hpr, if_pos hpc, if_neg hlr, if_neg hlc, Option.some_bind]
      by_cases h0 : (0 : ℚ) <
          ((List.filter (fun a => decide (a ∈ lowerSet c)) (lowerSet r)).length : ℚ) /
            ((lowerSet r).length : ℚ) +
          ((List.filter (fun a => decide (a ∈ lowerSet c)) (lowerSet r)).length : ℚ) /
            ((lowerSet c).length : ℚ)
      · rw [if_pos h0, if_pos h0, if_neg (ne_of_gt h0), Option.some_bind]
      · rw [if_neg h0, if_neg h0, Option.some_bind]

/-- Claim C4: the decision rule of the audit driver compares micro-F1
(as a percentage) with a fixed threshold of 80, inclusive on the pass side:
exactly 80 selects the positive branch, every value below 80 selects the
negative branch; the negative branch's worst-cases listing contains at most
10 rows, only rows whose formatted F1 cell is below 0.50, and is sorted
ascending by that F1 cell. -/
theorem claim_C4 :
    decisionIsGreen 80 = true ∧
    decisionIsGreen (79999 / 1000) = false ∧
    (∀ q : ℚ, q < 80 → decisionIsGreen q = false) ∧
    (∀ results : List AuditRow,
      (worstCases results).length ≤ 10 ∧
      (∀ r ∈ worstCases results, f1Cell r < 1 / 2) ∧
      (worstCases results).Sorted f1Le) := by
  refine ⟨?_, ?_, ?_, ?_⟩
  · simp [decisionIsGreen]
  · simp only [decisionIsGreen, decide_eq_false_iff_not, not_le]
    norm_num
  · intro q hq
    simp only [decisionIsGreen, decide_eq_false_iff_not, not_le]
    exact hq
  · intro results
    refine ⟨List.length_take_le _ _, ?_, ?_⟩
    · intro r hrmem
      have h1 := List.mem_of_mem_take hrmem
      have h2 := List.mem_filter.mp h1
      simpa using h2.2
    · have hs : (List.insertionSort f1Le results).Sorted f1Le :=
        List.sorted_insertionSort f1Le results
      have hsub : (worstCases results).Sublist (List.insertionSort f1Le results) :=
        (List.take_sublist _ _).trans (List.filter_sublist _)
      exact List.Pairwise.sublist hsub hs

/-- Witness for claim C4: the negative branch at micro-F1 zero and the (empty)
worst-cases listing of an empty result list. -/
theorem claim_C4_witness :
    decisionIsGreen 0 = false ∧ (worstCases []).length ≤ 10 :=
  ⟨claim_C4.2.2.1 0 (by norm_num), (claim_C4.2.2.2 []).1⟩

/-- Counterexample to claim C8 as stated: on a run where both input mappings
are empty the driver writes nothing at all, so the output artifact is empty
and in particular lacks the header row the claim requires for every run. -/
theorem claim_C8_counterexample :
    auditOutput [] [] = [] ∧ auditOutput [] [] ≠ [csvHeader] := by
  constructor
  · rfl
  · decide

/-- Claim C8 (amended): the review ids of a run are the sorted, duplicate-free
union of the key sets of the two input mappings, the driver produces exactly
one result row per id in that order, and the output artifact is the fixed
header row followed by those rows — except that a run with no ids writes an
empty artifact without even the header. -/
theorem claim_C8 :
    ∀ (rita_data gemini_data : List (String × List String)) (ids : List String),
      ids = allReviews rita_data gemini_data →
      ids.Sorted strLeR ∧
      ids.Nodup ∧
      (∀ k, k ∈ ids ↔ (k ∈ rita_data.map Prod.fst ∨ k ∈ gemini_data.map Prod.fst)) ∧
      (auditRows rita_data gemini_data).map (fun row => row.review_id) = ids ∧
      (ids = [] → auditOutput rita_data gemini_data = []) ∧
      (ids ≠ [] → auditOutput rita_data gemini_data =
        csvHeader :: (auditRows rita_data gemini_data).map rowCells) := by
  intro rd gd ids hids
  subst hids
  refine ⟨List.sorted_insertionSort _ _, ?_, ?_, ?_, ?_, ?_⟩
  · exact ((List.perm_insertionSort strLeR _).nodup_iff).mpr (List.nodup_dedup _)
  · intro k
    unfold allReviews
    rw [(List.perm_insertionSort strLeR _).mem_iff]
    simp [List.mem_dedup]
  · unfold auditRows
    rw [List.map_map]
    exact List.map_id _
  · intro h
    unfold auditOutput
    rw [if_pos (by rw [auditRows, h]; rfl)]
  · intro h
    unfold auditOutput
    rw [if_neg (fun hmap => h (by simpa [auditRows] using hmap))]

/-- Witness for claim C8: a run with one Rita review and one Gemini review
writes the header followed by the two rows. -/
theorem claim_C8_witness :
    auditOutput [("B", ["Comfort"])] [("A", [])] =
      csvHeader :: (auditRows [("B", ["Comfort"])] [("A", [])]).map rowCells :=
  (claim_C8 [("B", ["Comfort"])] [("A", [])]
    (allReviews [("B", ["Comfort"])] [("A", [])]) rfl).2.2.2.2.2 (by decide)

end RRE
